import Mathlib

/-!
Shallow embedding of `relik/inference/data/window/manager.py` (class
`WindowManager`) and proofs about it.

The tokenizer and the sentence splitter are external collaborators: they are
modelled as parameters (a per-document token list and a function from a
document's tokens to a list of token groups).  Python dicts are modelled as
insertion-ordered association lists with unique keys (`dinsert` overwrites in
place, `dlookup` returns the first match).  `RelikReaderSample` is a loose
attribute bag; it is modelled as a structure whose optionally-present
attributes are `Option` fields (`none` plays the role of a missing attribute /
`None`).
-/

set_option maxHeartbeats 1000000

/-- Token record produced by the external tokenizer: surface text, character
offset `idx` of its first character in the document, and global (document
level) token index `i`. -/
structure TokenRecord where
  text : String
  idx : Nat
  i : Nat
deriving DecidableEq, Repr

/-- Value held by the `doc_topic` variable of `create_windows`: either a plain
string (the explicit argument, or the `""` fallback) or a whole token record
(the code assigns `document_tokens[0]` itself, not its text). -/
inductive PyTopic where
  | str (s : String)
  | tok (t : TokenRecord)
deriving DecidableEq, Repr

/-- Python dict modelled as an insertion-ordered association list. -/
abbrev Dict (κ β : Type) := List (κ × β)

/-- Dict update `d[k] = v`: overwrite the first occurrence of `k` in place,
append the pair when `k` is absent (Python dict semantics). -/
def dinsert {κ β : Type} [DecidableEq κ] : Dict κ β → κ → β → Dict κ β
  | [], k, v => [(k, v)]
  | p :: rest, k, v => if p.1 = k then (k, v) :: rest else p :: dinsert rest k v

/-- Dict lookup `d[k]`: first entry with the given key. -/
def dlookup {κ β : Type} [DecidableEq κ] (d : Dict κ β) (k : κ) : Option β :=
  (d.find? (fun p => decide (p.1 = k))).map Prod.snd

/-- Build a dict from a list of key-value pairs, later pairs overwriting
earlier ones (dict comprehension / `dict.update` semantics). -/
def dict_of_pairs {κ β : Type} [DecidableEq κ] (l : List (κ × β)) : Dict κ β :=
  l.foldl (fun d p => dinsert d p.1 p.2) []

theorem dlookup_nil {κ β : Type} [DecidableEq κ] (k : κ) :
    dlookup ([] : Dict κ β) k = none := rfl

theorem dlookup_cons {κ β : Type} [DecidableEq κ] (p : κ × β) (d : Dict κ β) (k : κ) :
    dlookup (p :: d) k = if p.1 = k then some p.2 else dlookup d k := by
  by_cases h : p.1 = k <;> simp [dlookup, List.find?, h]

theorem dlookup_eq_none_of_not_mem_keys {κ β : Type} [DecidableEq κ] (d : Dict κ β)
    (k : κ) (h : k ∉ d.map Prod.fst) : dlookup d k = none := by
  induction d with
  | nil => rfl
  | cons p rest ih =>
    simp only [List.map_cons, List.mem_cons, not_or] at h
    rw [dlookup_cons, if_neg (fun hp => h.1 hp.symm)]
    exact ih h.2

theorem dlookup_dinsert {κ β : Type} [DecidableEq κ] (d : Dict κ β) (x k : κ) (v : β) :
    dlookup (dinsert d x v) k = if x = k then some v else dlookup d k := by
  induction d with
  | nil => by_cases h : x = k <;> simp [dinsert, dlookup_cons, h]
  | cons p rest ih =>
    simp only [dinsert]
    by_cases hp : p.1 = x
    · rw [if_pos hp, dlookup_cons]
      by_cases hk : x = k
      · simp [hk]
      · have hpk : ¬ p.1 = k := by rw [hp]; exact hk
        simp [hk, hpk, dlookup_cons]
    · rw [if_neg hp, dlookup_cons, dlookup_cons, ih]
      by_cases hk : p.1 = k
      · have hxk : ¬ x = k := by intro h; exact hp (by rw [h, hk])
        simp [hk, hxk]
      · simp [hk]

theorem dlookup_append {κ β : Type} [DecidableEq κ] (d1 d2 : Dict κ β) (k : κ) :
    dlookup (d1 ++ d2) k = (dlookup d1 k).orElse (fun _ => dlookup d2 k) := by
  induction d1 with
  | nil => simp [dlookup_nil]
  | cons p rest ih =>
    by_cases h : p.1 = k <;> simp [dlookup_cons, h, ih, Option.orElse]

/-- Folding dict updates over a list of pairs whose keys are distinct: the
entry list wins over the accumulator, first (= only) match semantics. -/
theorem dlookup_foldl_dinsert {κ β : Type} [DecidableEq κ] (l : List (κ × β))
    (hnd : (l.map Prod.fst).Nodup) (acc : Dict κ β) (k : κ) :
    dlookup (l.foldl (fun d p => dinsert d p.1 p.2) acc) k
      = (dlookup l k).orElse (fun _ => dlookup acc k) := by
  induction l generalizing acc with
  | nil => simp [dlookup_nil, Option.orElse]
  | cons p rest ih =>
    simp only [List.map_cons, List.nodup_cons] at hnd
    simp only [List.foldl_cons]
    rw [ih hnd.2, dlookup_cons]
    by_cases h : p.1 = k
    · have hrest : dlookup rest k = none :=
        dlookup_eq_none_of_not_mem_keys rest k (h ▸ hnd.1)
      simp [h, hrest, dlookup_dinsert, Option.orElse]
    · simp [h, dlookup_dinsert, Option.orElse]

theorem dlookup_dict_of_pairs {κ β : Type} [DecidableEq κ] (l : List (κ × β))
    (hnd : (l.map Prod.fst).Nodup) (k : κ) :
    dlookup (dict_of_pairs l) k = dlookup l k := by
  rw [dict_of_pairs, dlookup_foldl_dinsert l hnd [] k]
  cases dlookup l k <;> simp [Option.orElse, dlookup_nil]

/-- Predicted span value: compared and sorted as a plain value tuple. -/
abbrev Span := Nat × Nat

/-- Predicted triple value `(head_span_index, relation, tail_span_index, score)`. -/
abbrev Triple := Nat × Nat × Nat × Nat

/-- Lexicographic comparison of span tuples, as Python `sorted` orders them. -/
def spanLe (a b : Span) : Prop :=
  a.1 < b.1 ∨ (a.1 = b.1 ∧ a.2 ≤ b.2)

instance : DecidableRel spanLe := fun a b => by unfold spanLe; infer_instance

instance : IsTotal Span spanLe := ⟨by intro a b; unfold spanLe; omega⟩

instance : IsTrans Span spanLe := ⟨by intro a b c; unfold spanLe; omega⟩

/-- Lexicographic comparison of triple tuples, as Python `sorted` orders them. -/
def tripleLe (a b : Triple) : Prop :=
  a.1 < b.1 ∨ (a.1 = b.1 ∧ (a.2.1 < b.2.1 ∨ (a.2.1 = b.2.1 ∧
    (a.2.2.1 < b.2.2.1 ∨ (a.2.2.1 = b.2.2.1 ∧ a.2.2.2 ≤ b.2.2.2)))))

instance : DecidableRel tripleLe := fun a b => by unfold tripleLe; infer_instance

instance : IsTotal Triple tripleLe := ⟨by intro a b; unfold tripleLe; omega⟩

instance : IsTrans Triple tripleLe := ⟨by intro a b c; unfold tripleLe; omega⟩

/-- Python `sorted(set(l))`: the distinct elements of `l`, sorted. -/
def py_sorted_set {α : Type} [DecidableEq α] (r : α → α → Prop) [DecidableRel r]
    (l : List α) : List α :=
  List.insertionSort r l.dedup

theorem mem_py_sorted_set {α : Type} [DecidableEq α] (r : α → α → Prop) [DecidableRel r]
    (l : List α) (x : α) : x ∈ py_sorted_set r l ↔ x ∈ l := by
  unfold py_sorted_set
  rw [(List.perm_insertionSort r l.dedup).mem_iff, List.mem_dedup]

theorem nodup_py_sorted_set {α : Type} [DecidableEq α] (r : α → α → Prop) [DecidableRel r]
    (l : List α) : (py_sorted_set r l).Nodup :=
  ((List.perm_insertionSort r l.dedup).nodup_iff).2 l.nodup_dedup

theorem sorted_py_sorted_set {α : Type} [DecidableEq α] (r : α → α → Prop) [DecidableRel r]
    [IsTotal α r] [IsTrans α r] (l : List α) : (py_sorted_set r l).Sorted r :=
  List.sorted_insertionSort r l.dedup

/-- Scan `k` from the fuel value down to `1`, returning the first `k` whose
suffix of `w1` equals the prefix of `w2` (`w1[-k:] == w2[:k]`), else `0`.
This is the loop `for k in reversed(range(1, len(w1_tokens)))` of
`_merge_tokens` (and the identical loop of `_merge_words`). -/
def scan_overlap {α : Type} [DecidableEq α] (w1 w2 : List α) : Nat → Nat
  | 0 => 0
  | k + 1 =>
    if w1.drop (w1.length - (k + 1)) = w2.take (k + 1) then k + 1
    else scan_overlap w1 w2 k

/-- Overlap length between two content sequences (`tokens_intersection` /
`words_intersection` in the source): largest `k` in `1..len(w1)-1` with
`w1[-k:] == w2[:k]`, else `0`. -/
def tokens_intersection {α : Type} [DecidableEq α] (w1 w2 : List α) : Nat :=
  scan_overlap w1 w2 (w1.length - 1)

/-- RelikReaderSample: loose attribute bag used for windows; optionally present
attributes are `Option` fields, `none` meaning the attribute is missing (which
`getattr(..., None)` reports as `None`). -/
structure Window where
  docId : Option Nat
  windowId : Option Nat
  text : Option String
  tokens : List String
  words : List String
  docTopic : Option PyTopic
  offset : Option Nat
  spans : Option (List (Nat × Nat))
  token2charStart : Dict Nat Nat
  token2charEnd : Dict Nat Nat
  char2tokenStart : Option (Dict Nat Nat)
  char2tokenEnd : Option (Dict Nat Nat)
  token2wordStart : Option (Dict Nat Nat)
  token2wordEnd : Option (Dict Nat Nat)
  candidates : Option (List Nat)
  windowsCandidates : Option (List Nat)
  spanCandidates : Option (List Nat)
  tripletCandidates : Option (List Nat)
  windowLabels : Option (List (List Nat))
  predictedSpans : Option (List Span)
  probsWindowLabelsChars : Option (Dict Span Nat)
  predictedSpansProbs : Option (Dict Span Nat)
  predictedTriples : Option (List Triple)
  predictedTriplesProbs : Option (Dict Triple Nat)
deriving DecidableEq, Repr

/-- Window value with every optional attribute missing, for building concrete
test windows by structure update. -/
def emptyWindow : Window where
  docId := none
  windowId := none
  text := none
  tokens := []
  words := []
  docTopic := none
  offset := none
  spans := none
  token2charStart := []
  token2charEnd := []
  char2tokenStart := none
  char2tokenEnd := none
  token2wordStart := none
  token2wordEnd := none
  candidates := none
  windowsCandidates := none
  spanCandidates := none
  tripletCandidates := none
  windowLabels := none
  predictedSpans := none
  probsWindowLabelsChars := none
  predictedSpansProbs := none
  predictedTriples := none
  predictedTriplesProbs := none

/-- Inner helper `merge_char_mapping` of `_merge_tokens`: copy `t2c1` into a
fresh dict, then write each entry `(t, c)` of `t2c2` with `t ≥ k` under key
`t + w2_starting_offset` (entries with `t < k` are dropped). -/
def merge_char_mapping (inter off : Nat) (t2c1 t2c2 : Dict Nat Nat) : Dict Nat Nat :=
  t2c2.foldl (fun acc p => if p.1 < inter then acc else dinsert acc (p.1 + off) p.2)
    (dict_of_pairs t2c1)

/-- Static method `_merge_tokens`: strip the boundary markers, find the
overlap, and rebuild `[tokens[0]] + w1 + w2[k:] + [tokens[-1]]` together with
the two merged token-to-char maps.  (`tokens.take 1` models `[tokens[0]]` and
`tokens.drop (len - 1)` models `[tokens[-1]]`, defined in Python only for
nonempty token lists.) -/
def _merge_tokens (window1 window2 : Window) :
    List String × Dict Nat Nat × Dict Nat Nat :=
  let w1_tokens := (window1.tokens.drop 1).dropLast
  let w2_tokens := (window2.tokens.drop 1).dropLast
  let inter := tokens_intersection w1_tokens w2_tokens
  let off := w1_tokens.length - inter
  (window1.tokens.take 1 ++ w1_tokens ++ w2_tokens.drop inter
      ++ window1.tokens.drop (window1.tokens.length - 1),
   merge_char_mapping inter off window1.token2charStart window2.token2charStart,
   merge_char_mapping inter off window1.token2charEnd window2.token2charEnd)

/-- Inner helper `merge_word_mapping` of `_merge_words`: like
`merge_char_mapping`, with `None` maps treated as empty dicts. -/
def merge_word_mapping (inter off : Nat) (t2c1 t2c2 : Option (Dict Nat Nat)) : Dict Nat Nat :=
  (t2c2.getD []).foldl
    (fun acc p => if p.1 < inter then acc else dinsert acc (p.1 + off) p.2)
    (dict_of_pairs (t2c1.getD []))

/-- Static method `_merge_words`: same overlap scan over the full `words`
lists (no boundary markers), concatenating `w1_words + w2_words[k:]`. -/
def _merge_words (window1 window2 : Window) :
    List String × Dict Nat Nat × Dict Nat Nat :=
  let w1_words := window1.words
  let w2_words := window2.words
  let inter := tokens_intersection w1_words w2_words
  let off := w1_words.length - inter
  (w1_words ++ w2_words.drop inter,
   merge_word_mapping inter off window1.token2wordStart window2.token2wordStart,
   merge_word_mapping inter off window1.token2wordEnd window2.token2wordEnd)

/-- Order used by `sorted(..., key=lambda x: x[0])` in `_merge_span_annotation`. -/
def labelLe (a b : List Nat) : Prop := a.headD 0 ≤ b.headD 0

instance : DecidableRel labelLe := fun a b => by unfold labelLe; infer_instance

instance : IsTotal (List Nat) labelLe := ⟨by intro a b; unfold labelLe; omega⟩

instance : IsTrans (List Nat) labelLe := ⟨by intro a b c; unfold labelLe; omega⟩

/-- Static method `_merge_span_annotation`: chain the two lists, keep the
first occurrence of each value, sort by start position. -/
def _merge_span_annot (sa1 sa2 : List (List Nat)) : List (List Nat) :=
  py_sorted_set labelLe (sa1 ++ sa2)

/-- Python `list.index`: position of the first occurrence of `x` in `l`
(Python raises when absent; the uses below always look up a member). -/
def py_index {α : Type} [DecidableEq α] (x : α) : List α → Nat
  | [] => 0
  | a :: rest => if a = x then 0 else py_index x rest + 1

theorem getD_py_index {α : Type} [DecidableEq α] (l : List α) (x d : α) (h : x ∈ l) :
    l.getD (py_index x l) d = x := by
  induction l with
  | nil => cases h
  | cons a rest ih =>
    by_cases ha : a = x
    · simp [py_index, ha]
    · have hx : x ∈ rest := by
        rcases List.mem_cons.1 h with h1 | h1
        · exact absurd h1.symm ha
        · exact h1
      have hpi : py_index x (a :: rest) = py_index x rest + 1 := by
        simp [py_index, ha]
      rw [hpi, List.getD_cons_succ]
      exact ih hx

/-- Triple translation of `_merge_predictions`: each referenced local span is
looked up in the window's own `predicted_spans` and replaced by its position
(`list.index`) in the merged, sorted span list. -/
def translate_one (merged spans : List Span) (t : Triple) : Triple :=
  (py_index (spans.getD t.1 (0, 0)) merged, t.2.1,
   py_index (spans.getD t.2.2.1 (0, 0)) merged, t.2.2.2)

/-- The translation comprehension over one window's `predicted_triples`. -/
def translate_triples (merged spans : List Span) (ts : List Triple) : List Triple :=
  ts.map (translate_one merged spans)

/-- Static method `_merge_predictions`.  Returns (merged span predictions,
merged span probabilities, merged triple predictions, merged triple
probabilities — the latter always empty). -/
def _merge_predictions (window1 window2 : Window) :
    List Span × Dict Span Nat × List Triple × Dict Triple Nat :=
  match window1.predictedSpans, window2.predictedSpans with
  | some s1, some s2 =>
    let merged_span_predictions := py_sorted_set spanLe (s1 ++ s2)
    let merged_span_probabilities :=
      ((window1.probsWindowLabelsChars.getD [])
          ++ (window2.probsWindowLabelsChars.getD [])).foldl
        (fun acc p => if (dlookup acc p.1).isSome then acc else acc ++ [p]) []
    match window1.predictedTriples, window2.predictedTriples with
    | some t1, some t2 =>
      (merged_span_predictions, merged_span_probabilities,
       py_sorted_set tripleLe
         (translate_triples merged_span_predictions s1 t1
           ++ translate_triples merged_span_predictions s2 t2),
       [])
    | _, _ => (merged_span_predictions, merged_span_probabilities, [], [])
  | _, _ => ([], [], [], [])

/-- One candidate-list field of `_merge_candidates`: `candidates = []` /
`candidates = window1.f` (an alias!) / `candidates += window2.f` (in-place
extension of the aliased list).  Returns the local list and the post-call
value of `window1.f` — mutated exactly when both fields were present. -/
def py_iadd_field (f1 f2 : Option (List Nat)) : List Nat × Option (List Nat) :=
  match f1, f2 with
  | some a, some b => (a ++ b, some (a ++ b))
  | some a, none => (a, some a)
  | none, some b => (b, none)
  | none, none => ([], none)

/-- Static method `_merge_candidates`: merge the four candidate-list fields
(`list(set(...))` modelled by `dedup`; the order of a Python set is
unspecified, no claim depends on it).  The second component is the post-call
state of `window1`, recording the in-place `+=` mutations. -/
def _merge_candidates (window1 window2 : Window) :
    (List Nat × List Nat × List Nat × List Nat) × Window :=
  let c := py_iadd_field window1.candidates window2.candidates
  let wc := py_iadd_field window1.windowsCandidates window2.windowsCandidates
  let sc := py_iadd_field window1.spanCandidates window2.spanCandidates
  let tc := py_iadd_field window1.tripletCandidates window2.tripletCandidates
  ((c.1.dedup, wc.1.dedup, sc.1.dedup, tc.1.dedup),
   { window1 with candidates := c.2, windowsCandidates := wc.2,
                  spanCandidates := sc.2, tripletCandidates := tc.2 })

/-- Assembly step of `_merge_window_pair`: the merged sample built from the
per-field merge helpers and the `merging_output` dict (attributes never put
into `merging_output` — `window_id`, `text`, `doc_topic`, `spans`,
`char2token_*` — are missing on the merged sample). -/
def merged_sample (window1 window2 : Window) (wl : Option (List (List Nat))) : Window :=
  let mt := _merge_tokens window1 window2
  let mw := _merge_words window1 window2
  let mc := (_merge_candidates window1 window2).1
  let mp := _merge_predictions window1 window2
  { docId := window1.docId
    windowId := none
    text := none
    tokens := mt.1
    words := mw.1
    docTopic := none
    offset := window2.offset
    spans := none
    token2charStart := mt.2.1
    token2charEnd := mt.2.2
    char2tokenStart := none
    char2tokenEnd := none
    token2wordStart := some mw.2.1
    token2wordEnd := some mw.2.2
    candidates := some mc.1
    windowsCandidates := some mc.2.1
    spanCandidates := some mc.2.2.1
    tripletCandidates := some mc.2.2.2
    windowLabels := wl
    predictedSpans := some mp.1
    probsWindowLabelsChars := none
    predictedSpansProbs := some mp.2.1
    predictedTriples := some mp.2.2.1
    predictedTriplesProbs := some mp.2.2.2 }

/-- Method `_merge_window_pair`: precondition asserts, then assembly of the
merged sample from the per-field merge helpers.  A failing `assert` (or the
`TypeError` of comparing an offset with `None`, or of chaining with a `None`
`window_labels`) is modelled as `Except.error`. -/
def _merge_window_pair (window1 window2 : Window) : Except String Window :=
  if window1.docId.isSome ∧ window1.docId ≠ window2.docId then
    .error "assert window1.doc_id == window2.doc_id"
  else if window1.offset.isSome ∧ window2.offset = none then
    .error "TypeError: comparison of int and None"
  else if window1.offset.isSome ∧ ¬ (window1.offset.getD 0 < window2.offset.getD 0) then
    .error "window 2 offset is smaller that window 1 offset"
  else
    match window1.windowLabels with
    | some l1 =>
      match window2.windowLabels with
      | some l2 => .ok (merged_sample window1 window2 (some (_merge_span_annot l1 l2)))
      | none => .error "TypeError: chain on None window_labels"
    | none => .ok (merged_sample window1 window2 none)

/-- Python string slice `document[a:b]`. -/
def py_slice (s : String) (a b : Nat) : String :=
  String.mk ((s.toList.drop a).take (b - a))

/-- Construction of one `RelikReaderSample` window inside the
`create_windows` loop (the `RelikReaderSample(...)` call): text slice, token
and word texts, span filter, and the four char/token offset dicts.
`window[0]` / `window[-1]` are modelled with `headD` / `getLastD`; Python
raises on an empty window, so theorems restrict to nonempty groups. -/
def make_sample (doc_id window_id : Nat) (document : String) (topic : PyTopic)
    (document_mentions : List (Nat × Nat)) (window : List TokenRecord) : Window :=
  let window_text_start := (window.headD ⟨"", 0, 0⟩).idx
  let wlast := window.getLastD ⟨"", 0, 0⟩
  let window_text_end := wlast.idx + wlast.text.length
  { docId := some doc_id
    windowId := some window_id
    text := some (py_slice document window_text_start window_text_end)
    tokens := window.map (fun w => w.text)
    words := window.map (fun w => w.text)
    docTopic := some topic
    offset := some window_text_start
    spans := some (document_mentions.filter (fun m =>
        decide (m.1 < window_text_end) && decide (window_text_start ≤ m.1)
          && decide (m.2 ≤ window_text_end) && decide (window_text_start ≤ m.2)))
    token2charStart := dict_of_pairs (window.enum.map (fun p => (p.1, p.2.idx)))
    token2charEnd := dict_of_pairs (window.enum.map (fun p => (p.1, p.2.idx + p.2.text.length)))
    char2tokenStart := some (dict_of_pairs (window.map (fun w => (w.idx, w.i))))
    char2tokenEnd := some (dict_of_pairs (window.map (fun w => (w.idx + w.text.length, w.i))))
    token2wordStart := none
    token2wordEnd := none
    candidates := none
    windowsCandidates := none
    spanCandidates := none
    tripletCandidates := none
    windowLabels := none
    predictedSpans := none
    probsWindowLabelsChars := none
    predictedSpansProbs := none
    predictedTriples := none
    predictedTriplesProbs := none }

/-- The `doc_topic` update at the top of the per-document loop: keep the
current value if set, otherwise the document's first token (the record
itself, not its text), otherwise `""`. -/
def cw_topic_step (topic : Option PyTopic) (document_tokens : List TokenRecord) : PyTopic :=
  match topic with
  | some t => t
  | none =>
    match document_tokens with
    | t :: _ => PyTopic.tok t
    | [] => PyTopic.str ""

/-- All samples constructed for one document: one per splitter window group,
with `window_id` from `enumerate`. -/
def cw_doc_samples (splitter : List TokenRecord → List (List TokenRecord)) (doc_id : Nat)
    (document : String) (topic : PyTopic) (document_mentions : List (Nat × Nat))
    (document_tokens : List TokenRecord) : List Window :=
  (splitter document_tokens).enum.map
    (fun p => make_sample doc_id p.1 document topic document_mentions p.2)

/-- Routing of constructed samples: a sample goes to the blank output when
mentions were supplied and its `spans` is empty, to the primary output
otherwise (order of appends preserved). -/
def route_samples (mentions_supplied : Bool) : List Window → List Window × List Window
  | [] => ([], [])
  | s :: rest =>
    let pb := route_samples mentions_supplied rest
    if mentions_supplied && decide (s.spans = some []) then (pb.1, s :: pb.2)
    else (s :: pb.1, pb.2)

/-- Main loop of `create_windows` over `(document, document_tokens,
document_mentions)` triples, threading the `doc_topic` variable (which, once
set by a document, is never reset) and the `doc_id` counter. -/
def cw_loop (splitter : List TokenRecord → List (List TokenRecord)) (mentions_supplied : Bool) :
    Option PyTopic → Nat → List (String × List TokenRecord × List (Nat × Nat)) →
    List Window × List Window
  | _, _, [] => ([], [])
  | topic, doc_id, (document, document_tokens, document_mentions) :: rest =>
    let topic2 := cw_topic_step topic document_tokens
    let pb := route_samples mentions_supplied
      (cw_doc_samples splitter doc_id document topic2 document_mentions document_tokens)
    let rpb := cw_loop splitter mentions_supplied (some topic2) (doc_id + 1) rest
    (pb.1 ++ rpb.1, pb.2 ++ rpb.2)

/-- The `doc_iter` zip of `create_windows`: documents with their token lists
and their mention lists (or `itertools.repeat([])` when no mentions are
supplied); like Python `zip`, it truncates to the shortest input. -/
def cw_zip (documents : List String) (documents_tokens : List (List TokenRecord))
    (mentions : Option (List (List (Nat × Nat)))) :
    List (String × List TokenRecord × List (Nat × Nat)) :=
  match mentions with
  | some ms => documents.zip (documents_tokens.zip ms)
  | none => (documents.zip documents_tokens).map (fun p => (p.1, p.2, []))

/-- Method `create_windows`, over already-normalized inputs: `documents` is
the document list, `documents_tokens` the external tokenizer's output for it,
`splitter` the external window splitter (already configured).  The failing
`assert` on a length mismatch between documents and mentions is modelled as
`Except.error`. -/
def create_windows (documents : List String) (documents_tokens : List (List TokenRecord))
    (splitter : List TokenRecord → List (List TokenRecord))
    (doc_topic : Option String) (mentions : Option (List (List (Nat × Nat)))) :
    Except String (List Window × List Window) :=
  match mentions with
  | some ms =>
    if documents.length = ms.length then
      .ok (cw_loop splitter true (doc_topic.map PyTopic.str) 0
        (cw_zip documents documents_tokens (some ms)))
    else .error "documents and mentions should have the same length"
  | none =>
    .ok (cw_loop splitter false (doc_topic.map PyTopic.str) 0
      (cw_zip documents documents_tokens none))

/-- Both outputs of a `create_windows` run as one list (primary then blank);
empty on a precondition failure. -/
def windows_of (e : Except String (List Window × List Window)) : List Window :=
  match e with
  | .ok p => p.1 ++ p.2
  | .error _ => []

/-- The constructed windows of the `create_windows` loop before routing, in
construction order: the loop of `cw_loop` with the routing `if` removed. -/
def cw_all (splitter : List TokenRecord → List (List TokenRecord)) :
    Option PyTopic → Nat → List (String × List TokenRecord × List (Nat × Nat)) → List Window
  | _, _, [] => []
  | topic, doc_id, (document, document_tokens, document_mentions) :: rest =>
    let topic2 := cw_topic_step topic document_tokens
    cw_doc_samples splitter doc_id document topic2 document_mentions document_tokens
      ++ cw_all splitter (some topic2) (doc_id + 1) rest

/-- The property the spec ascribes to the overlap value: the largest `k` with
`1 ≤ k ≤ len(w1) - 1` whose `w1`-suffix of length `k` equals the `w2`-prefix
of length `k`, and `0` when no such `k` exists. -/
def IsLargestOverlap {α : Type} (w1 w2 : List α) (k : Nat) : Prop :=
  (k = 0 ∨ (1 ≤ k ∧ k ≤ w1.length - 1 ∧ w1.drop (w1.length - k) = w2.take k))
  ∧ ∀ j, 1 ≤ j → j ≤ w1.length - 1 → k < j → w1.drop (w1.length - j) ≠ w2.take j

theorem scan_overlap_spec {α : Type} [DecidableEq α] (w1 w2 : List α) (n : Nat) :
    (scan_overlap w1 w2 n = 0 ∨
      (1 ≤ scan_overlap w1 w2 n ∧ scan_overlap w1 w2 n ≤ n ∧
        w1.drop (w1.length - scan_overlap w1 w2 n) = w2.take (scan_overlap w1 w2 n)))
    ∧ ∀ j, 1 ≤ j → j ≤ n → scan_overlap w1 w2 n < j →
        w1.drop (w1.length - j) ≠ w2.take j := by
  induction n with
  | zero =>
    refine ⟨Or.inl rfl, ?_⟩
    intro j hj1 hj2 _
    exact absurd (hj1.trans hj2) (by omega)
  | succ k ih =>
    by_cases h : w1.drop (w1.length - (k + 1)) = w2.take (k + 1)
    · have hs : scan_overlap w1 w2 (k + 1) = k + 1 := by simp [scan_overlap, h]
      rw [hs]
      refine ⟨Or.inr ⟨by omega, Nat.le_refl _, h⟩, ?_⟩
      intro j _ hj2 hj3
      exact absurd (hj3.trans_le hj2) (by omega)
    · have hs : scan_overlap w1 w2 (k + 1) = scan_overlap w1 w2 k := by
        simp [scan_overlap, h]
      rw [hs]
      refine ⟨?_, ?_⟩
      · rcases ih.1 with h0 | ⟨ha, hb, hc⟩
        · exact Or.inl h0
        · exact Or.inr ⟨ha, hb.trans (by omega), hc⟩
      intro j hj1 hj2 hj3
      by_cases hj : j ≤ k
      · exact ih.2 j hj1 hj hj3
      · have : j = k + 1 := by omega
        rw [this]
        exact h

/-- The overlap computed by the source's scanning loop is exactly the largest
matching `k` (and `0` when nothing matches). -/
theorem tokens_intersection_isLargest {α : Type} [DecidableEq α] (w1 w2 : List α) :
    IsLargestOverlap w1 w2 (tokens_intersection w1 w2) := by
  have h := scan_overlap_spec w1 w2 (w1.length - 1)
  exact ⟨by
    rcases h.1 with h0 | ⟨ha, hb, hc⟩
    · exact Or.inl h0
    · exact Or.inr ⟨ha, hb, hc⟩, h.2⟩

theorem take_one_of_ne_nil {α : Type} (l : List α) (h : l ≠ []) :
    l.take 1 = [l.head h] := by
  cases l with
  | nil => exact absurd rfl h
  | cons a rest => rfl

theorem drop_length_sub_one_eq {α : Type} (l : List α) (h : l ≠ []) :
    l.drop (l.length - 1) = [l.getLast h] := by
  induction l with
  | nil => exact absurd rfl h
  | cons a rest ih =>
    cases rest with
    | nil => rfl
    | cons b bs =>
      have hne : (b :: bs) ≠ [] := by simp
      have hlen : (a :: b :: bs).length - 1 = (b :: bs).length - 1 + 1 := by
        simp [List.length_cons]
      rw [hlen, List.drop_succ_cons, ih hne, List.getLast_cons hne]

/-- Lookup characterization of the re-keying fold shared by
`merge_char_mapping` and `merge_word_mapping`: assuming the second dict has
distinct keys, the merged value at `key` is the (unique) kept entry of `t2c2`
shifted onto `key` when there is one, and the accumulator's value otherwise —
so the second window's entries overwrite the accumulator on collisions. -/
theorem dlookup_shift_fold (inter off : Nat) (d2 : Dict Nat Nat)
    (h2 : (d2.map Prod.fst).Nodup) (acc : Dict Nat Nat) (key : Nat) :
    dlookup (d2.foldl
        (fun acc p => if p.1 < inter then acc else dinsert acc (p.1 + off) p.2) acc) key
      = ((d2.find? (fun p => decide (inter ≤ p.1) && decide (p.1 + off = key))).map
          Prod.snd).orElse (fun _ => dlookup acc key) := by
  induction d2 generalizing acc with
  | nil =>
    cases h : dlookup acc key <;> simp [List.find?, Option.orElse, h]
  | cons p rest ih =>
    simp only [List.map_cons, List.nodup_cons] at h2
    simp only [List.foldl_cons]
    rw [ih h2.2]
    by_cases hlt : p.1 < inter
    · have hpred : (decide (inter ≤ p.1) && decide (p.1 + off = key)) = false := by
        simp; omega
      simp only [if_pos hlt, List.find?_cons, hpred]
    · by_cases hkey : p.1 + off = key
      · have hpred : (decide (inter ≤ p.1) && decide (p.1 + off = key)) = true := by
          simp; omega
      
        have hnone : rest.find?
            (fun p => decide (inter ≤ p.1) && decide (p.1 + off = key)) = none := by
          rw [List.find?_eq_none]
          intro q hq hpq
          simp only [Bool.and_eq_true, decide_eq_true_eq] at hpq
          exact h2.1 (by
            have : q.1 = p.1 := by omega
            exact this ▸ List.mem_map_of_mem Prod.fst hq)
        rw [if_neg hlt, hnone, List.find?_cons, hpred]
        simp [dlookup_dinsert, hkey, Option.orElse]
      · have hpred : (decide (inter ≤ p.1) && decide (p.1 + off = key)) = false := by
          simp; omega
        rw [if_neg hlt, List.find?_cons, hpred]
        simp [dlookup_dinsert, hkey]

/-- Lookup characterization of `merge_char_mapping` itself (both dicts with
distinct keys, as every dict built by the program has). -/
theorem merge_char_mapping_dlookup (inter off : Nat) (d1 d2 : Dict Nat Nat)
    (h1 : (d1.map Prod.fst).Nodup) (h2 : (d2.map Prod.fst).Nodup) (key : Nat) :
    dlookup (merge_char_mapping inter off d1 d2) key
      = ((d2.find? (fun p => decide (inter ≤ p.1) && decide (p.1 + off = key))).map
          Prod.snd).orElse (fun _ => dlookup d1 key) := by
  rw [merge_char_mapping, dlookup_shift_fold inter off d2 h2 (dict_of_pairs d1) key,
    dlookup_dict_of_pairs d1 h1 key]

/-- Lookup characterization of the probability-merge fold of
`_merge_predictions`: adding an entry only when its key is absent makes the
first writer win, so the fold's lookups agree with first-match lookup in the
chained entry list. -/
theorem dlookup_first_write_fold {κ β : Type} [DecidableEq κ] (l : List (κ × β))
    (acc : Dict κ β) (k : κ) :
    dlookup (l.foldl
        (fun acc p => if (dlookup acc p.1).isSome then acc else acc ++ [p]) acc) k
      = (dlookup acc k).orElse (fun _ => dlookup l k) := by
  induction l generalizing acc with
  | nil => cases h : dlookup acc k <;> simp [dlookup_nil, Option.orElse, h]
  | cons p rest ih =>
    simp only [List.foldl_cons]
    by_cases hin : (dlookup acc p.1).isSome
    · rw [if_pos hin, ih, dlookup_cons]
      by_cases hk : p.1 = k
      · obtain ⟨v, hv⟩ := Option.isSome_iff_exists.1 hin
        rw [hk] at hv
        simp [hk, hv, Option.orElse]
      · simp [hk]
    · rw [if_neg hin, ih, dlookup_append, dlookup_cons]
      have hp : dlookup [p] k = if p.1 = k then some p.2 else none := by
        rw [dlookup_cons, dlookup_nil]
      by_cases hk : p.1 = k
      · have hacc : dlookup acc k = none := by
          rw [← hk]
          exact Option.not_isSome_iff_eq_none.1 hin
        simp [hk, hacc, hp, Option.orElse, dlookup_cons, dlookup_nil]
      · cases hacc : dlookup acc k <;>
          simp [hk, hacc, hp, Option.orElse, dlookup_cons, dlookup_nil]

theorem dlookup_enumFrom_map_val {β : Type} (f : TokenRecord → β) (g : List TokenRecord) :
    ∀ (n k : Nat) (hk : k < g.length),
      dlookup ((g.enumFrom n).map (fun p => (p.1, f p.2))) (n + k)
        = some (f (g.get ⟨k, hk⟩)) := by
  induction g with
  | nil => intro n k hk; exact absurd hk (by simp)
  | cons a rest ih =>
    intro n k hk
    cases k with
    | zero => simp [List.enumFrom_cons, dlookup_cons]
    | succ j =>
      have hj : j < rest.length := by simpa using hk
      have hkey : ¬ (n = n + (j + 1)) := by omega
      have harith : n + (j + 1) = (n + 1) + j := by omega
      simp only [List.enumFrom_cons, List.map_cons, dlookup_cons, if_neg hkey]
      rw [harith, ih (n + 1) j hj]
      rfl

theorem nodup_keys_enumFrom_map {β : Type} (f : TokenRecord → β) (g : List TokenRecord)
    (n : Nat) :
    (((g.enumFrom n).map (fun p => (p.1, f p.2))).map Prod.fst).Nodup := by
  have : ((g.enumFrom n).map (fun p => (p.1, f p.2))).map Prod.fst
      = (g.enumFrom n).map Prod.fst := by
    rw [List.map_map]; rfl
  rw [this, List.enumFrom_map_fst]
  exact List.nodup_range' _ _

/-- First-match lookup in a key-value list built from distinct keys finds the
entry of the `k`-th element. -/
theorem dlookup_map_key_val {κ β : Type} [DecidableEq κ] (kf : TokenRecord → κ)
    (vf : TokenRecord → β) (g : List TokenRecord) (hnd : (g.map kf).Nodup) :
    ∀ (k : Nat) (hk : k < g.length),
      dlookup (g.map (fun w => (kf w, vf w))) (kf (g.get ⟨k, hk⟩))
        = some (vf (g.get ⟨k, hk⟩)) := by
  induction g with
  | nil => intro k hk; exact absurd hk (by simp)
  | cons a rest ih =>
    simp only [List.map_cons, List.nodup_cons] at hnd
    intro k hk
    cases k with
    | zero => simp [dlookup_cons]
    | succ j =>
      have hj : j < rest.length := by simpa using hk
      have hmem : kf (rest.get ⟨j, hj⟩) ∈ rest.map kf :=
        List.mem_map_of_mem kf (rest.get_mem j hj)
      have hkey : ¬ (kf a = kf (rest.get ⟨j, hj⟩)) := by
        intro he
        apply hnd.1
        rw [he]
        exact hmem
      have hgc : (a :: rest).get ⟨j + 1, hk⟩ = rest.get ⟨j, hj⟩ := rfl
      simp only [List.map_cons, dlookup_cons, hgc, if_neg hkey]
      exact ih hnd.2 j hj

theorem route_samples_eq_filter (ms : Bool) (l : List Window) :
    route_samples ms l
      = (l.filter (fun s => !(ms && decide (s.spans = some []))),
         l.filter (fun s => ms && decide (s.spans = some []))) := by
  induction l with
  | nil => rfl
  | cons s rest ih =>
    by_cases h : s.spans = some ([] : List (Nat × Nat))
    · cases ms with
      | true => simp [route_samples, ih, List.filter_cons, h]
      | false => simp [route_samples, ih, List.filter_cons, h]
    · simp [route_samples, ih, List.filter_cons, h]

theorem cw_loop_eq_filter (splitter : List TokenRecord → List (List TokenRecord))
    (ms : Bool) :
    ∀ (topic : Option PyTopic) (doc_id : Nat)
      (l : List (String × List TokenRecord × List (Nat × Nat))),
      cw_loop splitter ms topic doc_id l
        = ((cw_all splitter topic doc_id l).filter
             (fun s => !(ms && decide (s.spans = some []))),
           (cw_all splitter topic doc_id l).filter
             (fun s => ms && decide (s.spans = some []))) := by
  intro topic doc_id l
  induction l generalizing topic doc_id with
  | nil => rfl
  | cons d rest ih =>
    obtain ⟨doc, dt, dM⟩ := d
    simp only [cw_loop, cw_all, route_samples_eq_filter, ih, List.filter_append]

/-- Every window of either `create_windows` output is among the constructed
windows of the loop. -/
theorem mem_cw_all_of_mem_windows_of (documents : List String)
    (documents_tokens : List (List TokenRecord))
    (splitter : List TokenRecord → List (List TokenRecord))
    (doc_topic : Option String) (mentions : Option (List (List (Nat × Nat)))) (w : Window)
    (hw : w ∈ windows_of (create_windows documents documents_tokens splitter doc_topic mentions)) :
    w ∈ cw_all splitter (doc_topic.map PyTopic.str) 0
        (cw_zip documents documents_tokens mentions) := by
  cases mentions with
  | none =>
    simp only [create_windows, windows_of, cw_loop_eq_filter, List.mem_append] at hw
    rcases hw with h | h <;> exact (List.mem_filter.1 h).1
  | some ms =>
    simp only [create_windows] at hw
    by_cases hlen : documents.length = ms.length
    · rw [if_pos hlen] at hw
      simp only [windows_of, cw_loop_eq_filter, List.mem_append] at hw
      rcases hw with h | h <;> exact (List.mem_filter.1 h).1
    · rw [if_neg hlen] at hw
      exact absurd hw (by simp [windows_of])

/-- Provenance: every constructed window is a `make_sample` of one of the
splitter's token groups for one of the zipped documents. -/
theorem mem_cw_all_elim (splitter : List TokenRecord → List (List TokenRecord)) :
    ∀ (topic : Option PyTopic) (doc_id : Nat)
      (l : List (String × List TokenRecord × List (Nat × Nat))) (w : Window),
      w ∈ cw_all splitter topic doc_id l →
      ∃ did wid doc tp dM dt g, (doc, dt, dM) ∈ l ∧ g ∈ splitter dt
        ∧ w = make_sample did wid doc tp dM g := by
  intro topic doc_id l
  induction l generalizing topic doc_id with
  | nil => intro w hw; exact absurd hw (by simp [cw_all])
  | cons d rest ih =>
    obtain ⟨doc, dt, dM⟩ := d
    intro w hw
    simp only [cw_all, List.mem_append] at hw
    rcases hw with h | h
    · simp only [cw_doc_samples, List.mem_map] at h
      obtain ⟨p, hp, hps⟩ := h
      have hg : p.2 ∈ splitter dt := by
        have := List.mem_map_of_mem Prod.snd hp
        rwa [List.enum_map_snd] at this
      exact ⟨doc_id, p.1, doc, cw_topic_step topic dt, dM, dt, p.2,
        by simp, hg, hps.symm⟩
    · obtain ⟨did, wid, doc2, tp, dM2, dt2, g, hmem, hg, hs⟩ :=
        ih (some (cw_topic_step topic dt)) (doc_id + 1) w h
      exact ⟨did, wid, doc2, tp, dM2, dt2, g, by simp [hmem], hg, hs⟩

def c1_window_a : Window :=
  { emptyWindow with tokens := ["[CLS]", "the", "cat", "sat", "[SEP]"] }

def c1_window_b : Window :=
  { emptyWindow with tokens := ["[CLS]", "cat", "sat", "down", "[SEP]"] }

/-- C1: for every pairwise merge the merged token list is
`[a.tokens[0]] + a.tokens[1:-1] + b.tokens[1:-1][k:] + [a.tokens[-1]]` where
`k` is the largest value in `1..len(a.tokens[1:-1])-1` such that the last `k`
content tokens of `a` equal the first `k` content tokens of `b` (scanning `k`
downward, first match wins), `k = 0` when no such value exists; and in
particular merging `[CLS, the, cat, sat, SEP]` with `[CLS, cat, sat, down,
SEP]` gives `[CLS, the, cat, sat, down, SEP]`. -/
theorem c1_merge_tokens_overlap_dedup (window1 window2 : Window)
    (h : window1.tokens ≠ []) :
    (∃ k, (_merge_tokens window1 window2).1
        = window1.tokens.head h :: ((window1.tokens.drop 1).dropLast
            ++ ((window2.tokens.drop 1).dropLast).drop k
            ++ [window1.tokens.getLast h])
      ∧ IsLargestOverlap ((window1.tokens.drop 1).dropLast)
          ((window2.tokens.drop 1).dropLast) k)
    ∧ (_merge_tokens c1_window_a c1_window_b).1
        = ["[CLS]", "the", "cat", "sat", "down", "[SEP]"] := by
  constructor
  · refine ⟨tokens_intersection ((window1.tokens.drop 1).dropLast)
      ((window2.tokens.drop 1).dropLast), ?_, tokens_intersection_isLargest _ _⟩
    show window1.tokens.take 1 ++ _ ++ _
        ++ window1.tokens.drop (window1.tokens.length - 1) = _
    rw [take_one_of_ne_nil _ h, drop_length_sub_one_eq _ h]
    simp
  · rfl

/-- Witness for C1 at the spec's concrete example. -/
theorem c1_merge_tokens_overlap_dedup_witness :
    (_merge_tokens c1_window_a c1_window_b).1
      = ["[CLS]", "the", "cat", "sat", "down", "[SEP]"] :=
  (c1_merge_tokens_overlap_dedup c1_window_a c1_window_b (by decide)).2

def c3_window_a : Window :=
  { emptyWindow with
      tokens := ["[CLS]", "x", "y", "[SEP]"],
      token2charStart := [(0, 100), (1, 0), (2, 2), (3, 100)] }

def c3_window_b : Window :=
  { emptyWindow with
      tokens := ["[CLS]", "y", "z", "[SEP]"],
      token2charStart := [(0, 200), (1, 2), (2, 4), (3, 200)] }

/-- C3 counterexample: merging these two windows has overlap `k = 1` and
offset `len(a_content) - k = 1`; `b`'s kept entry `2 ↦ 4` is re-keyed to
`3`, which collides with `a`'s own entry `3 ↦ 100` — and the merged map
holds `b`'s value `4` there, not `a`'s value `100`, refuting "`a`'s entries
win on any key collision". -/
theorem c3_collision_counterexample :
    dlookup (_merge_tokens c3_window_a c3_window_b).2.1 3 = some 4
    ∧ dlookup c3_window_a.token2charStart 3 = some 100
    ∧ (some 4 : Option Nat) ≠ some 100 :=
  ⟨by decide, by decide, by decide⟩

/-- C3 amended: in every pairwise merge with overlap `k`, each entry of `b`'s
token-indexed (and word-indexed) maps with index `t < k` is dropped and each
entry with `t ≥ k` is re-keyed to `t + (len(a_content) - k)`; `a`'s entries
are copied first, but `b`'s re-keyed entries are written after them and win
on any key collision (lookup characterization below), and these are exactly
the maps `_merge_tokens` / `_merge_words` build. -/
theorem c3_remap_b_wins (inter off key : Nat) (d1 d2 : Dict Nat Nat)
    (o1 o2 : Option (Dict Nat Nat)) (window1 window2 : Window)
    (h1 : (d1.map Prod.fst).Nodup) (h2 : (d2.map Prod.fst).Nodup)
    (ho1 : ((o1.getD []).map Prod.fst).Nodup) (ho2 : ((o2.getD []).map Prod.fst).Nodup) :
    dlookup (merge_char_mapping inter off d1 d2) key
      = ((d2.find? (fun p => decide (inter ≤ p.1) && decide (p.1 + off = key))).map
          Prod.snd).orElse (fun _ => dlookup d1 key)
    ∧ dlookup (merge_word_mapping inter off o1 o2) key
      = (((o2.getD []).find? (fun p => decide (inter ≤ p.1) && decide (p.1 + off = key))).map
          Prod.snd).orElse (fun _ => dlookup (o1.getD []) key)
    ∧ (_merge_tokens window1 window2).2.1
      = merge_char_mapping
          (tokens_intersection ((window1.tokens.drop 1).dropLast)
            ((window2.tokens.drop 1).dropLast))
          (((window1.tokens.drop 1).dropLast).length
            - tokens_intersection ((window1.tokens.drop 1).dropLast)
                ((window2.tokens.drop 1).dropLast))
          window1.token2charStart window2.token2charStart
    ∧ (_merge_words window1 window2).2.1
      = merge_word_mapping
          (tokens_intersection window1.words window2.words)
          (window1.words.length - tokens_intersection window1.words window2.words)
          window1.token2wordStart window2.token2wordStart := by
  refine ⟨merge_char_mapping_dlookup inter off d1 d2 h1 h2 key, ?_, rfl, rfl⟩
  have hw : merge_word_mapping inter off o1 o2
      = merge_char_mapping inter off (o1.getD []) (o2.getD []) := rfl
  rw [hw]
  exact merge_char_mapping_dlookup inter off _ _ ho1 ho2 key

/-- Witness for C3's amended theorem at concrete dicts and windows. -/
theorem c3_remap_b_wins_witness :
    dlookup (merge_char_mapping 1 1 [(0, 100), (1, 0)] [(1, 2), (2, 4)]) 2
      = ((([(1, 2), (2, 4)] : Dict Nat Nat).find?
          (fun p => decide (1 ≤ p.1) && decide (p.1 + 1 = 2))).map Prod.snd).orElse
          (fun _ => dlookup [(0, 100), (1, 0)] 2)
    ∧ dlookup (merge_word_mapping 1 1 (some [(0, 100), (1, 0)]) (some [(1, 2), (2, 4)])) 2
      = (((((some [(1, 2), (2, 4)] : Option (Dict Nat Nat))).getD []).find?
          (fun p => decide (1 ≤ p.1) && decide (p.1 + 1 = 2))).map Prod.snd).orElse
          (fun _ => dlookup (((some [(0, 100), (1, 0)] : Option (Dict Nat Nat))).getD []) 2)
    ∧ (_merge_tokens c3_window_a c3_window_b).2.1
      = merge_char_mapping
          (tokens_intersection ((c3_window_a.tokens.drop 1).dropLast)
            ((c3_window_b.tokens.drop 1).dropLast))
          (((c3_window_a.tokens.drop 1).dropLast).length
            - tokens_intersection ((c3_window_a.tokens.drop 1).dropLast)
                ((c3_window_b.tokens.drop 1).dropLast))
          c3_window_a.token2charStart c3_window_b.token2charStart
    ∧ (_merge_words c3_window_a c3_window_b).2.1
      = merge_word_mapping
          (tokens_intersection c3_window_a.words c3_window_b.words)
          (c3_window_a.words.length
            - tokens_intersection c3_window_a.words c3_window_b.words)
          c3_window_a.token2wordStart c3_window_b.token2wordStart :=
  c3_remap_b_wins 1 1 2 [(0, 100), (1, 0)] [(1, 2), (2, 4)]
    (some [(0, 100), (1, 0)]) (some [(1, 2), (2, 4)]) c3_window_a c3_window_b
    (by decide) (by decide) (by decide) (by decide)

def c8_window_a : Window := { emptyWindow with candidates := some [1] }

def c8_window_b : Window := { emptyWindow with candidates := some [2] }

/-- C8: the claim says merging never mutates its inputs; but
`candidates += window2.candidates` in `_merge_candidates` extends the list
aliased from `window1.candidates` in place, so after the merge
`window1.candidates` has grown from `[1]` to `[1, 2]` — the input window is
mutated (the spec's no-mutation statement is right, the code slips). -/
theorem c8_candidates_mutated :
    c8_window_a.candidates = some [1]
    ∧ ((_merge_candidates c8_window_a c8_window_b).2).candidates = some [1, 2]
    ∧ (_merge_candidates c8_window_a c8_window_b).2 ≠ c8_window_a :=
  ⟨rfl, rfl, by decide⟩

/-- C9: precondition violations fail immediately: mismatched
mentions/documents length in `create_windows`, differing `doc_id`s in the
pairwise merge, and out-of-order offsets (`a.offset ≥ b.offset`). -/
theorem c9_preconditions_fail (documents : List String)
    (documents_tokens : List (List TokenRecord))
    (splitter : List TokenRecord → List (List TokenRecord)) (doc_topic : Option String)
    (ms : List (List (Nat × Nat))) (w1 w2 w3 w4 : Window) (d1 d2 o1 o2 : Nat) :
    (documents.length ≠ ms.length →
      ∃ e, create_windows documents documents_tokens splitter doc_topic (some ms)
        = .error e)
    ∧ (w1.docId = some d1 → w2.docId = some d2 → d1 ≠ d2 →
        ∃ e, _merge_window_pair w1 w2 = .error e)
    ∧ (w3.offset = some o1 → w4.offset = some o2 → o2 ≤ o1 →
        ∃ e, _merge_window_pair w3 w4 = .error e) := by
  refine ⟨?_, ?_, ?_⟩
  · intro hlen
    refine ⟨"documents and mentions should have the same length", ?_⟩
    simp [create_windows, hlen]
  · intro hd1 hd2 hne
    have hc : w1.docId.isSome ∧ w1.docId ≠ w2.docId := by
      rw [hd1, hd2]
      exact ⟨rfl, by simpa using hne⟩
    refine ⟨"assert window1.doc_id == window2.doc_id", ?_⟩
    rw [_merge_window_pair, if_pos hc]
  · intro ho1 ho2 hle
    by_cases hd : w3.docId.isSome ∧ w3.docId ≠ w4.docId
    · exact ⟨"assert window1.doc_id == window2.doc_id",
        by rw [_merge_window_pair, if_pos hd]⟩
    · have hc2 : ¬ (w3.offset.isSome ∧ w4.offset = none) := by
        rw [ho2]
        simp
      have hc3 : w3.offset.isSome ∧ ¬ (w3.offset.getD 0 < w4.offset.getD 0) := by
        rw [ho1, ho2]
        exact ⟨rfl, by simp; omega⟩
      exact ⟨"window 2 offset is smaller that window 1 offset",
        by rw [_merge_window_pair, if_neg hd, if_neg hc2, if_pos hc3]⟩

/-- Witness for C9: a 1-document/0-mention call, a doc-id mismatch, and an
out-of-order offset pair all signal errors. -/
theorem c9_preconditions_fail_witness :
    (∃ e, create_windows ["a"] [[]] (fun ts => [ts]) none (some [])
      = .error e)
    ∧ (∃ e, _merge_window_pair { emptyWindow with docId := some 0 }
        { emptyWindow with docId := some 1 } = .error e)
    ∧ (∃ e, _merge_window_pair { emptyWindow with offset := some 5 }
        { emptyWindow with offset := some 3 } = .error e) := by
  obtain ⟨ha, hb, hc⟩ := c9_preconditions_fail ["a"] [[]] (fun ts => [ts]) none []
    { emptyWindow with docId := some 0 } { emptyWindow with docId := some 1 }
    { emptyWindow with offset := some 5 } { emptyWindow with offset := some 3 }
    0 1 5 3
  exact ⟨ha (by decide), hb rfl rfl (by decide), hc rfl rfl (by decide)⟩

def c2_tok_a : TokenRecord := ⟨"a", 0, 0⟩

def c2_tok_b : TokenRecord := ⟨"b", 2, 1⟩

def c2_splitter : List TokenRecord → List (List TokenRecord) :=
  fun ts => ts.map (fun t => [t])

/-- C2 counterexample: splitting the two-token document `"a b"` into two
one-token windows, the second window has `token2char_start = {0: 2}` and
`char2token_start = {2: 1}` (the value is the token's global index `w.i`),
so `char2token_start[token2char_start[0]] = 1 ≠ 0` — the round trip returns
the global token index, not the window-local one. -/
theorem c2_roundtrip_counterexample :
    ((windows_of (create_windows ["a b"] [[c2_tok_a, c2_tok_b]] c2_splitter none none)).map
        (fun w => dlookup (w.char2tokenStart.getD [])
          ((dlookup w.token2charStart 0).getD 99)))
      = [some 0, some 1]
    ∧ (some 1 : Option Nat) ≠ some 0 :=
  ⟨by decide, by decide⟩

/-- C2 amended: for every window produced by `create_windows` (a
`make_sample` of some splitter group `g`, by provenance) and token index
`k`, provided the character keys are collision-free,
`char2token_start[token2char_start[k]]` is the *global* token index
`g[k].i` (and symmetrically for `end`) — it equals the window-local `k` only
when global and local indices coincide. -/
theorem c2_roundtrip_global_index (documents : List String)
    (documents_tokens : List (List TokenRecord))
    (splitter : List TokenRecord → List (List TokenRecord))
    (doc_topic : Option String) (mentions : Option (List (List (Nat × Nat)))) (w : Window)
    (hw : w ∈ windows_of
      (create_windows documents documents_tokens splitter doc_topic mentions)) :
    ∃ did wid doc tp dM g, w = make_sample did wid doc tp dM g
      ∧ ∀ (k : Nat) (hk : k < g.length),
          ((g.map (fun t => t.idx)).Nodup →
            dlookup w.token2charStart k = some (g.get ⟨k, hk⟩).idx
            ∧ dlookup (w.char2tokenStart.getD []) ((g.get ⟨k, hk⟩).idx)
              = some (g.get ⟨k, hk⟩).i)
          ∧ ((g.map (fun t => t.idx + t.text.length)).Nodup →
            dlookup w.token2charEnd k
              = some ((g.get ⟨k, hk⟩).idx + (g.get ⟨k, hk⟩).text.length)
            ∧ dlookup (w.char2tokenEnd.getD [])
                ((g.get ⟨k, hk⟩).idx + (g.get ⟨k, hk⟩).text.length)
              = some (g.get ⟨k, hk⟩).i) := by
  obtain ⟨did, wid, doc, tp, dM, dt, g, hmem, hg, hget⟩ :=
    mem_cw_all_elim splitter _ 0 _ w
      (mem_cw_all_of_mem_windows_of documents documents_tokens splitter
        doc_topic mentions w hw)
  subst hget
  refine ⟨did, wid, doc, tp, dM, g, rfl, ?_⟩
  intro k hk
  constructor
  · intro hs
    constructor
    · show dlookup (dict_of_pairs ((g.enumFrom 0).map (fun p => (p.1, p.2.idx)))) k = _
      rw [dlookup_dict_of_pairs _ (nodup_keys_enumFrom_map (fun t => t.idx) g 0)]
      have := dlookup_enumFrom_map_val (fun t => t.idx) g 0 k hk
      simpa using this
    · show dlookup (dict_of_pairs (g.map (fun t => (t.idx, t.i)))) _ = _
      have hnd : ((g.map (fun t => ((t.idx, t.i) : Nat × Nat))).map Prod.fst).Nodup := by
        rw [List.map_map]
        exact hs
      rw [dlookup_dict_of_pairs _ hnd]
      exact dlookup_map_key_val (fun t => t.idx) (fun t => t.i) g hs k hk
  · intro he
    constructor
    · show dlookup (dict_of_pairs ((g.enumFrom 0).map
        (fun p => (p.1, p.2.idx + p.2.text.length)))) k = _
      rw [dlookup_dict_of_pairs _
        (nodup_keys_enumFrom_map (fun t => t.idx + t.text.length) g 0)]
      have := dlookup_enumFrom_map_val (fun t => t.idx + t.text.length) g 0 k hk
      simpa using this
    · show dlookup (dict_of_pairs (g.map (fun t => (t.idx + t.text.length, t.i)))) _ = _
      have hnd : ((g.map (fun t => ((t.idx + t.text.length, t.i) : Nat × Nat))).map
          Prod.fst).Nodup := by
        rw [List.map_map]
        exact he
      rw [dlookup_dict_of_pairs _ hnd]
      exact dlookup_map_key_val (fun t => t.idx + t.text.length) (fun t => t.i) g he k hk

def c2_witness_window : Window :=
  make_sample 0 1 "a b" (PyTopic.tok c2_tok_a) [] [c2_tok_b]

/-- Witness for C2's amended theorem on the second window of the
counterexample run. -/
theorem c2_roundtrip_global_index_witness :
    ∃ did wid doc tp dM g, c2_witness_window = make_sample did wid doc tp dM g
      ∧ ∀ (k : Nat) (hk : k < g.length),
          ((g.map (fun t => t.idx)).Nodup →
            dlookup c2_witness_window.token2charStart k = some (g.get ⟨k, hk⟩).idx
            ∧ dlookup (c2_witness_window.char2tokenStart.getD []) ((g.get ⟨k, hk⟩).idx)
              = some (g.get ⟨k, hk⟩).i)
          ∧ ((g.map (fun t => t.idx + t.text.length)).Nodup →
            dlookup c2_witness_window.token2charEnd k
              = some ((g.get ⟨k, hk⟩).idx + (g.get ⟨k, hk⟩).text.length)
            ∧ dlookup (c2_witness_window.char2tokenEnd.getD [])
                ((g.get ⟨k, hk⟩).idx + (g.get ⟨k, hk⟩).text.length)
              = some (g.get ⟨k, hk⟩).i) :=
  c2_roundtrip_global_index ["a b"] [[c2_tok_a, c2_tok_b]] c2_splitter none none
    c2_witness_window (by decide)

def c4_tok : TokenRecord := ⟨"abcd", 0, 0⟩

/-- C4 counterexample: with the single mention `(3, 3)` on document
`"abcd"` (one window, `window_text_start = 0`, `window_text_end = 4`), the
span filter attaches `(3, 3)` — both endpoints are in range — even though
`start < end` fails, refuting "every attached span satisfies
`window_text_start ≤ start < end ≤ window_text_end`". -/
theorem c4_degenerate_span_counterexample :
    ((windows_of (create_windows ["abcd"] [[c4_tok]] (fun ts => [ts]) none
        (some [[(3, 3)]]))).map (fun w => w.spans))
      = [some [(3, 3)]]
    ∧ ¬ ((3 : Nat) < 3) :=
  ⟨by decide, by decide⟩

/-- C4 amended: provided every supplied mention is well-formed
(`start < end`), a mention is attached to a window exactly when it is
strictly contained in `[window_text_start, window_text_end]`; a degenerate
mention (`start ≥ end`) is attached whenever both endpoints lie in range,
violating the claimed inequality.  The second conjunct is provenance: every
window of a mention-supplied run is a `make_sample` of its document's
supplied mention list. -/
theorem c4_span_containment (doc_id window_id : Nat) (document : String)
    (topic : PyTopic) (document_mentions : List (Nat × Nat)) (window : List TokenRecord)
    (hwf : ∀ m ∈ document_mentions, m.1 < m.2) (m : Nat × Nat)
    (documents : List String) (documents_tokens : List (List TokenRecord))
    (splitter : List TokenRecord → List (List TokenRecord)) (doc_topic : Option String)
    (ms : List (List (Nat × Nat))) (w : Window) :
    (m ∈ ((make_sample doc_id window_id document topic document_mentions window).spans.getD [])
      ↔ m ∈ document_mentions
        ∧ (window.headD ⟨"", 0, 0⟩).idx ≤ m.1 ∧ m.1 < m.2
        ∧ m.2 ≤ (window.getLastD ⟨"", 0, 0⟩).idx + (window.getLastD ⟨"", 0, 0⟩).text.length)
    ∧ (w ∈ windows_of (create_windows documents documents_tokens splitter doc_topic (some ms)) →
        ∃ did wid doc tp dM g, dM ∈ ms ∧ w = make_sample did wid doc tp dM g) := by
  constructor
  · have hs : (make_sample doc_id window_id document topic document_mentions window).spans
        = some (document_mentions.filter (fun m =>
            decide (m.1 < (window.getLastD ⟨"", 0, 0⟩).idx
                + (window.getLastD ⟨"", 0, 0⟩).text.length)
              && decide ((window.headD ⟨"", 0, 0⟩).idx ≤ m.1)
              && decide (m.2 ≤ (window.getLastD ⟨"", 0, 0⟩).idx
                + (window.getLastD ⟨"", 0, 0⟩).text.length)
              && decide ((window.headD ⟨"", 0, 0⟩).idx ≤ m.2))) := rfl
    rw [hs, Option.getD_some, List.mem_filter]
    simp only [Bool.and_eq_true, decide_eq_true_eq]
    constructor
    · rintro ⟨hm, ⟨⟨hlt, hge⟩, hle⟩, hge2⟩
      have := hwf m hm
      exact ⟨hm, by omega⟩
    · rintro ⟨hm, h1, h2, h3⟩
      exact ⟨hm, by omega⟩
  · intro hw
    obtain ⟨did, wid, doc, tp, dM, dt, g, hmem, hg, hget⟩ :=
      mem_cw_all_elim splitter _ 0 _ w
        (mem_cw_all_of_mem_windows_of documents documents_tokens splitter
          doc_topic (some ms) w hw)
    simp only [cw_zip] at hmem
    have hdm : dM ∈ ms := (List.of_mem_zip (List.of_mem_zip hmem).2).2
    exact ⟨did, wid, doc, tp, dM, g, hdm, hget⟩

/-- Witness for C4's amended theorem: the mention `(1, 3)` is well-formed
and strictly contained, so it is attached. -/
theorem c4_span_containment_witness :
    ((1, 3) ∈ ((make_sample 0 0 "abcd" (PyTopic.tok c4_tok) [(1, 3)] [c4_tok]).spans.getD [])
      ↔ (1, 3) ∈ [((1 : Nat), (3 : Nat))]
        ∧ (([c4_tok].headD ⟨"", 0, 0⟩).idx ≤ 1 ∧ 1 < 3
        ∧ 3 ≤ ([c4_tok].getLastD ⟨"", 0, 0⟩).idx + ([c4_tok].getLastD ⟨"", 0, 0⟩).text.length))
    ∧ (c2_witness_window ∈ windows_of (create_windows ["abcd"] [[c4_tok]]
          (fun ts => [ts]) none (some [[(1, 3)]])) →
        ∃ did wid doc tp dM g, dM ∈ [[((1 : Nat), (3 : Nat))]]
          ∧ c2_witness_window = make_sample did wid doc tp dM g) :=
  c4_span_containment 0 0 "abcd" (PyTopic.tok c4_tok) [(1, 3)] [c4_tok]
    (by decide) (1, 3) ["abcd"] [[c4_tok]] (fun ts => [ts]) none [[(1, 3)]]
    c2_witness_window

/-- C5: with mentions supplied, the primary output is exactly the
constructed windows with a nonempty `spans` and the blank output exactly
those with empty `spans`; with no mentions supplied, every constructed
window is in the primary output and the blank output is empty. -/
theorem c5_mention_routing (documents : List String)
    (documents_tokens : List (List TokenRecord))
    (splitter : List TokenRecord → List (List TokenRecord)) (doc_topic : Option String) :
    (∀ ms p b,
      create_windows documents documents_tokens splitter doc_topic (some ms) = .ok (p, b) →
        p = (cw_all splitter (doc_topic.map PyTopic.str) 0
              (cw_zip documents documents_tokens (some ms))).filter
            (fun s => !(decide (s.spans = some [])))
        ∧ b = (cw_all splitter (doc_topic.map PyTopic.str) 0
              (cw_zip documents documents_tokens (some ms))).filter
            (fun s => decide (s.spans = some [])))
    ∧ (∀ p b,
      create_windows documents documents_tokens splitter doc_topic none = .ok (p, b) →
        p = cw_all splitter (doc_topic.map PyTopic.str) 0
              (cw_zip documents documents_tokens none)
        ∧ b = []) := by
  constructor
  · intro ms p b h
    simp only [create_windows] at h
    by_cases hlen : documents.length = ms.length
    · rw [if_pos hlen, cw_loop_eq_filter] at h
      simp only [Except.ok.injEq, Prod.mk.injEq] at h
      refine ⟨?_, ?_⟩
      · rw [← h.1]
        simp only [Bool.true_and]
      · rw [← h.2]
        simp only [Bool.true_and]
    · rw [if_neg hlen] at h
      exact absurd h (by simp)
  · intro p b h
    simp only [create_windows, cw_loop_eq_filter] at h
    simp only [Except.ok.injEq, Prod.mk.injEq] at h
    refine ⟨?_, ?_⟩
    · rw [← h.1]
      simp
    · rw [← h.2]
      simp

def c5_mentions : List (List (Nat × Nat)) := [[(0, 2)]]

/-- Witness for C5 on a one-document, one-mention run. -/
theorem c5_mention_routing_witness :
    ∃ p b, create_windows ["ab"] [[⟨"ab", 0, 0⟩]] (fun ts => [ts]) none (some c5_mentions)
        = .ok (p, b)
      ∧ p = (cw_all (fun ts => [ts]) none 0
            (cw_zip ["ab"] [[⟨"ab", 0, 0⟩]] (some c5_mentions))).filter
          (fun s => !(decide (s.spans = some [])))
      ∧ b = (cw_all (fun ts => [ts]) none 0
            (cw_zip ["ab"] [[⟨"ab", 0, 0⟩]] (some c5_mentions))).filter
          (fun s => decide (s.spans = some [])) := by
  obtain ⟨p, b, hok⟩ :
      ∃ p b, create_windows ["ab"] [[⟨"ab", 0, 0⟩]] (fun ts => [ts]) none
        (some c5_mentions) = .ok (p, b) := ⟨_, _, rfl⟩
  obtain ⟨hp, hb⟩ := (c5_mention_routing ["ab"] [[⟨"ab", 0, 0⟩]] (fun ts => [ts]) none).1
    c5_mentions p b hok
  exact ⟨p, b, hok, hp, hb⟩

def c7_tok_rome : TokenRecord := ⟨"Rome", 0, 0⟩

def c7_tok_x : TokenRecord := ⟨"x", 5, 1⟩

def c7_tok_paris : TokenRecord := ⟨"Paris", 0, 0⟩

def c7_tok_y : TokenRecord := ⟨"y", 6, 1⟩

/-- C7 failing input: two documents, no explicit `doc_topic`.  The loop
reassigns the `doc_topic` parameter when it is `None`, so after the first
document sets it, every later document reuses it: both windows carry the
first document's first token as topic, where the claim (and spec) require
the second document's windows to carry its own first token (`Paris`).  (The
code also stores the token record itself rather than its text.) -/
theorem c7_topic_leaks_across_documents :
    ((windows_of (create_windows ["Rome x", "Paris y"]
        [[c7_tok_rome, c7_tok_x], [c7_tok_paris, c7_tok_y]]
        (fun ts => [ts]) none none)).map (fun w => w.docTopic))
      = [some (PyTopic.tok c7_tok_rome), some (PyTopic.tok c7_tok_rome)]
    ∧ some (PyTopic.tok c7_tok_rome) ≠ some (PyTopic.tok c7_tok_paris) :=
  ⟨by decide, by decide⟩

/-- C10: every window of either `create_windows` output has `tokens` and
`words` equal element-for-element, both being the raw texts of its splitter
group's tokens — no boundary markers are added at construction. -/
theorem c10_tokens_eq_words (documents : List String)
    (documents_tokens : List (List TokenRecord))
    (splitter : List TokenRecord → List (List TokenRecord))
    (doc_topic : Option String) (mentions : Option (List (List (Nat × Nat)))) (w : Window)
    (hw : w ∈ windows_of
      (create_windows documents documents_tokens splitter doc_topic mentions)) :
    w.tokens = w.words
    ∧ ∃ did wid doc tp dM g, w = make_sample did wid doc tp dM g
        ∧ w.tokens = g.map (fun t => t.text) := by
  obtain ⟨did, wid, doc, tp, dM, dt, g, hmem, hg, hget⟩ :=
    mem_cw_all_elim splitter _ 0 _ w
      (mem_cw_all_of_mem_windows_of documents documents_tokens splitter
        doc_topic mentions w hw)
  subst hget
  exact ⟨rfl, did, wid, doc, tp, dM, g, rfl, rfl⟩

/-- Witness for C10 on a concrete two-token window. -/
theorem c10_tokens_eq_words_witness :
    (make_sample 0 0 "a b" (PyTopic.tok c2_tok_a) [] [c2_tok_a, c2_tok_b]).tokens
      = (make_sample 0 0 "a b" (PyTopic.tok c2_tok_a) [] [c2_tok_a, c2_tok_b]).words
    ∧ ∃ did wid doc tp dM g,
        make_sample 0 0 "a b" (PyTopic.tok c2_tok_a) [] [c2_tok_a, c2_tok_b]
          = make_sample did wid doc tp dM g
        ∧ (make_sample 0 0 "a b" (PyTopic.tok c2_tok_a) [] [c2_tok_a, c2_tok_b]).tokens
          = g.map (fun t => t.text) :=
  c10_tokens_eq_words ["a b"] [[c2_tok_a, c2_tok_b]] (fun ts => [ts]) none none
    (make_sample 0 0 "a b" (PyTopic.tok c2_tok_a) [] [c2_tok_a, c2_tok_b]) (by decide)

/-- C6: when both windows carry `predicted_spans`, the merged span list is
the sorted, duplicate-free union of the two lists; the merged probability
map takes `a`'s entries first and adds `b`'s only for absent keys; when both
windows also carry `predicted_triples`, the merged triples are the sorted
set union of the two translated triple lists (each local span index replaced
by the referenced span's position in the merged sorted list — `indexOf` into
the merged list returns the span itself), and `predicted_triples_probs` is
left empty. -/
theorem c6_merge_predictions_union (window1 window2 : Window)
    (s1 s2 : List Span) (t1 t2 : List Triple)
    (hs1 : window1.predictedSpans = some s1) (hs2 : window2.predictedSpans = some s2)
    (ht1 : window1.predictedTriples = some t1) (ht2 : window2.predictedTriples = some t2) :
    ((_merge_predictions window1 window2).1 = py_sorted_set spanLe (s1 ++ s2)
      ∧ (∀ x, x ∈ (_merge_predictions window1 window2).1 ↔ (x ∈ s1 ∨ x ∈ s2))
      ∧ (_merge_predictions window1 window2).1.Nodup
      ∧ (_merge_predictions window1 window2).1.Sorted spanLe)
    ∧ (∀ key, dlookup (_merge_predictions window1 window2).2.1 key
        = (dlookup (window1.probsWindowLabelsChars.getD []) key).orElse
            (fun _ => dlookup (window2.probsWindowLabelsChars.getD []) key))
    ∧ ((∀ t, t ∈ (_merge_predictions window1 window2).2.2.1 ↔
          ((∃ u ∈ t1, translate_one (_merge_predictions window1 window2).1 s1 u = t)
            ∨ (∃ u ∈ t2, translate_one (_merge_predictions window1 window2).1 s2 u = t)))
      ∧ (_merge_predictions window1 window2).2.2.1.Nodup
      ∧ (_merge_predictions window1 window2).2.2.1.Sorted tripleLe
      ∧ (∀ s, (s ∈ s1 ∨ s ∈ s2) →
          (_merge_predictions window1 window2).1.getD
            (py_index s (_merge_predictions window1 window2).1) (0, 0) = s))
    ∧ (_merge_predictions window1 window2).2.2.2 = [] := by
  have hred : _merge_predictions window1 window2
      = (py_sorted_set spanLe (s1 ++ s2),
         ((window1.probsWindowLabelsChars.getD [])
            ++ (window2.probsWindowLabelsChars.getD [])).foldl
           (fun acc p => if (dlookup acc p.1).isSome then acc else acc ++ [p]) [],
         py_sorted_set tripleLe
           (translate_triples (py_sorted_set spanLe (s1 ++ s2)) s1 t1
             ++ translate_triples (py_sorted_set spanLe (s1 ++ s2)) s2 t2),
         []) := by
    simp only [_merge_predictions, hs1, hs2, ht1, ht2]
  rw [hred]
  refine ⟨⟨rfl, ?_, nodup_py_sorted_set _ _, sorted_py_sorted_set _ _⟩, ?_, ⟨?_, ?_, ?_, ?_⟩, rfl⟩
  · intro x
    rw [mem_py_sorted_set, List.mem_append]
  · intro key
    rw [dlookup_first_write_fold]
    show dlookup ((window1.probsWindowLabelsChars.getD [])
        ++ (window2.probsWindowLabelsChars.getD [])) key = _
    rw [dlookup_append]
  · intro t
    rw [mem_py_sorted_set, List.mem_append]
    simp only [translate_triples, List.mem_map]
  · exact nodup_py_sorted_set _ _
  · exact sorted_py_sorted_set _ _
  · intro s hdisj
    have hmem : s ∈ py_sorted_set spanLe (s1 ++ s2) :=
      (mem_py_sorted_set spanLe (s1 ++ s2) s).2 (List.mem_append.2 hdisj)
    exact getD_py_index _ s (0, 0) hmem

def c6_window_a : Window :=
  { emptyWindow with
      predictedSpans := some [(0, 3)],
      probsWindowLabelsChars := some [((0, 3), 7)],
      predictedTriples := some ([] : List Triple) }

def c6_window_b : Window :=
  { emptyWindow with
      predictedSpans := some [(3, 3), (5, 8)],
      probsWindowLabelsChars := some [((3, 3), 9)],
      predictedTriples := some [(0, 1, 1, 1)] }

/-- Witness for C6 on the spec's prediction-remap example windows. -/
theorem c6_merge_predictions_union_witness :
    (∀ x, x ∈ (_merge_predictions c6_window_a c6_window_b).1
      ↔ (x ∈ [((0 : Nat), (3 : Nat))] ∨ x ∈ [((3 : Nat), (3 : Nat)), (5, 8)]))
    ∧ (_merge_predictions c6_window_a c6_window_b).2.2.2 = [] := by
  have h := c6_merge_predictions_union c6_window_a c6_window_b
    [(0, 3)] [(3, 3), (5, 8)] [] [(0, 1, 1, 1)] rfl rfl rfl rfl
  exact ⟨h.1.2.1, h.2.2.2⟩
